import Mathlib

/-!
Shallow embedding of the HashString string-interning facility
(src/HashString.h, src/HashString.cpp).

The C++ registry is the process-wide `std::map<StringID, std::string const> *
s_internedStrings` together with the hash function `std::hash<std::string> *
s_stringHash`.  We model the map as an association list `Entries` (keys are
`StringID`s, values the canonical strings; the map only ever gains entries,
each inserted only when its key is absent, so lookup semantics coincide with
`std::map`), and the hash function as an explicit parameter
`hasher : String → StringID`.  Static member functions that read or write the
global map are modelled in state-passing style: they take the current
`Entries` and return their result paired with the (possibly updated)
`Entries`, so that absence of mutation is visible in the type.
-/

/-- `typedef unsigned int StringID;` — a fixed-width unsigned integer.
The claims quantify over the hash function, so we model identifiers as `Nat`. -/
abbrev StringID := Nat

/-- The interned-string map `s_internedStrings`, as an association list from
identifier to canonical text. -/
abbrev Entries := List (StringID × String)

/-- `HashString::isStringInterned(std::string const&)`: hashes the string and
checks whether that identifier is a key of the map.  No mutation. -/
def isStringInterned (hasher : String → StringID) (entries : Entries)
    (str : String) : Bool × Entries :=
  ((entries.lookup (hasher str)).isSome, entries)

/-- `HashString::isStringInterned(StringID const&)`: direct presence check.
No mutation. -/
def isStringInternedID (entries : Entries) (hash_value : StringID) :
    Bool × Entries :=
  ((entries.lookup hash_value).isSome, entries)

/-- `HashString::internString`: hashes the string; if the identifier is
already a key the map is untouched, otherwise `(hash_value, str)` is inserted;
the identifier is returned either way. -/
def internString (hasher : String → StringID) (entries : Entries)
    (str : String) : StringID × Entries :=
  let hash_value := hasher str
  match entries.lookup hash_value with
  | some _ => (hash_value, entries)
  | none => (hash_value, entries ++ [(hash_value, str)])

/-- `HashString::getStringFromHash`: `rval` starts as the empty string and is
assigned the stored text only when `find` succeeds.  No mutation. -/
def getStringFromHash (entries : Entries) (id : StringID) : String × Entries :=
  (match entries.lookup id with
   | some v => v
   | none => "", entries)

/-- The `HashString` value type: `m_hashValue` plus `m_mapPosition`, the
iterator into the map.  For a validly constructed handle the iterator
dereferences to the `(key, canonical text)` pair, which we store directly
(entries are never removed or mutated, so the C++ iterator stays valid). -/
structure HashString where
  m_hashValue : StringID
  m_mapPosition : StringID × String
  deriving Repr, DecidableEq

/-- `HashString::getString`: returns `m_mapPosition->second`. -/
def HashString.getString (hs : HashString) : String :=
  hs.m_mapPosition.2

/-- `HashString::getHashValue`. -/
def HashString.getHashValue (hs : HashString) : StringID :=
  hs.m_hashValue

/-- `HashString::HashString(std::string const&)`: sets
`m_hashValue = hasher str`, performs `s_internedStrings->insert` (which does
nothing when the key exists) and binds `m_mapPosition` to the entry with that
key (the pre-existing entry or the newly inserted one). -/
def HashString.fromString (hasher : String → StringID) (entries : Entries)
    (str : String) : HashString × Entries :=
  let hash_value := hasher str
  match entries.lookup hash_value with
  | some v => (⟨hash_value, (hash_value, v)⟩, entries)
  | none =>
      (⟨hash_value, (hash_value, str)⟩, entries ++ [(hash_value, str)])

/-- `HashString::HashString(StringID const&)`: looks the identifier up; when
absent the code hits `assert(0 && "Uninterned HashString Referenced")`, which
we model as returning `none` (no usable handle).  The map is never written. -/
def HashString.fromStringID (entries : Entries) (str_id : StringID) :
    Option HashString × Entries :=
  match entries.lookup str_id with
  | some v => (some ⟨str_id, (str_id, v)⟩, entries)
  | none => (none, entries)

/-- `HashString const HashString::s_kEmptyString("")`: the constant handle
built from the empty string against the freshly created (empty) map, together
with the map state it leaves behind. -/
def emptyStringInit (hasher : String → StringID) : HashString × Entries :=
  HashString.fromString hasher [] ""

/-- The well-known empty-string constant handle `s_kEmptyString`. -/
def s_kEmptyString (hasher : String → StringID) : HashString :=
  (emptyStringInit hasher).1

/-- The map contents right after static construction of `s_kEmptyString`. -/
def initialEntries (hasher : String → StringID) : Entries :=
  (emptyStringInit hasher).2

/-- `HashString::HashString()`: redirects to the copy constructor applied to
`s_kEmptyString`, so it is a field-for-field copy of the constant. -/
def HashString.mkDefault (hasher : String → StringID) : HashString :=
  s_kEmptyString hasher

/-- `operator== (HashString const&)`: `m_hashValue == other.m_hashValue`. -/
def HashString.beq (a other : HashString) : Bool :=
  a.m_hashValue == other.m_hashValue

/-- `operator!= (HashString const&)`: `!(m_hashValue == other.m_hashValue)`. -/
def HashString.bne (a other : HashString) : Bool :=
  !(a.m_hashValue == other.m_hashValue)

/-- `operator== (std::string const&)`: `getString() == other`. -/
def HashString.beqStr (a : HashString) (other : String) : Bool :=
  a.getString == other

/-- `operator!= (std::string const&)`: `!(getString() == other)`. -/
def HashString.bneStr (a : HashString) (other : String) : Bool :=
  !(a.getString == other)

/-- `operator== (StringID const&)`: `m_hashValue == other`. -/
def HashString.beqID (a : HashString) (other : StringID) : Bool :=
  a.m_hashValue == other

/-- `operator!= (StringID const&)`: `m_hashValue != other`. -/
def HashString.bneID (a : HashString) (other : StringID) : Bool :=
  a.m_hashValue != other

/-- `operator< (HashString const&)`: `m_hashValue < other.m_hashValue`. -/
def HashString.ltHS (a other : HashString) : Bool :=
  a.m_hashValue < other.m_hashValue

/-- One invocation of the public facility, for stating properties over
arbitrary later operation sequences. -/
inductive Op where
  | internOp (s : String)
  | fromTextOp (s : String)
  | fromIDOp (id : StringID)
  | resolveOp (id : StringID)
  | checkTextOp (s : String)
  | checkIDOp (id : StringID)
  deriving Repr, DecidableEq

/-- The map state left behind by one operation. -/
def applyOp (hasher : String → StringID) (entries : Entries) : Op → Entries
  | .internOp s => (internString hasher entries s).2
  | .fromTextOp s => (HashString.fromString hasher entries s).2
  | .fromIDOp id => (HashString.fromStringID entries id).2
  | .resolveOp id => (getStringFromHash entries id).2
  | .checkTextOp s => (isStringInterned hasher entries s).2
  | .checkIDOp id => (isStringInternedID entries id).2

/-- The map state after a sequence of operations. -/
def runOps (hasher : String → StringID) (entries : Entries)
    (ops : List Op) : Entries :=
  ops.foldl (applyOp hasher) entries

/-- The registry invariant: every stored pair's key is the hash of its text. -/
def Good (hasher : String → StringID) (entries : Entries) : Prop :=
  ∀ p ∈ entries, hasher p.2 = p.1

instance (hasher : String → StringID) (entries : Entries) :
    Decidable (Good hasher entries) := by
  unfold Good; infer_instance

-- ## Helper lemmas

theorem lookup_append_some {k : StringID} {l t : Entries} {v : String}
    (h : l.lookup k = some v) : (l ++ t).lookup k = some v := by
  induction l with
  | nil => simp [List.lookup] at h
  | cons p rest ih =>
      simp only [List.lookup, List.cons_append] at h ⊢
      by_cases hk : k == p.1
      · simpa [hk] using h
      · simp only [hk] at h ⊢
        exact ih h

theorem lookup_append_none {k : StringID} {l t : Entries}
    (h : l.lookup k = none) : (l ++ t).lookup k = t.lookup k := by
  induction l with
  | nil => simp
  | cons p rest ih =>
      simp only [List.lookup, List.cons_append] at h ⊢
      by_cases hk : k == p.1
      · simp [hk] at h
      · simp only [hk] at h ⊢
        exact ih h

theorem internString_fst (hasher : String → StringID) (entries : Entries)
    (s : String) : (internString hasher entries s).1 = hasher s := by
  cases hl : entries.lookup (hasher s) <;> simp [internString, hl]

theorem internString_of_found {hasher : String → StringID} {entries : Entries}
    {s : String} {v : String} (h : entries.lookup (hasher s) = some v) :
    internString hasher entries s = (hasher s, entries) := by
  simp [internString, h]

theorem internString_of_absent {hasher : String → StringID} {entries : Entries}
    {s : String} (h : entries.lookup (hasher s) = none) :
    internString hasher entries s =
      (hasher s, entries ++ [(hasher s, s)]) := by
  simp [internString, h]

theorem lookup_after_intern (hasher : String → StringID) (entries : Entries)
    (s : String) :
    ∃ v, ((internString hasher entries s).2).lookup (hasher s) = some v := by
  cases hl : entries.lookup (hasher s) with
  | some v =>
      refine ⟨v, ?_⟩
      rw [internString_of_found hl]
      exact hl
  | none =>
      refine ⟨s, ?_⟩
      rw [internString_of_absent hl]
      rw [lookup_append_none hl]
      simp [List.lookup]

theorem applyOp_append (hasher : String → StringID) (entries : Entries)
    (op : Op) : ∃ t, applyOp hasher entries op = entries ++ t := by
  cases op with
  | internOp s =>
      cases hl : entries.lookup (hasher s)
      · exact ⟨[(hasher s, s)], by simp [applyOp, internString, hl]⟩
      · exact ⟨[], by simp [applyOp, internString, hl]⟩
  | fromTextOp s =>
      cases hl : entries.lookup (hasher s)
      · exact ⟨[(hasher s, s)], by simp [applyOp, HashString.fromString, hl]⟩
      · exact ⟨[], by simp [applyOp, HashString.fromString, hl]⟩
  | fromIDOp id =>
      cases hl : entries.lookup id
      · exact ⟨[], by simp [applyOp, HashString.fromStringID, hl]⟩
      · exact ⟨[], by simp [applyOp, HashString.fromStringID, hl]⟩
  | resolveOp id => exact ⟨[], by simp [applyOp, getStringFromHash]⟩
  | checkTextOp s => exact ⟨[], by simp [applyOp, isStringInterned]⟩
  | checkIDOp id => exact ⟨[], by simp [applyOp, isStringInternedID]⟩

theorem runOps_lookup_some {hasher : String → StringID} {entries : Entries}
    {k : StringID} {v : String} (ops : List Op)
    (h : entries.lookup k = some v) :
    (runOps hasher entries ops).lookup k = some v := by
  induction ops generalizing entries with
  | nil => exact h
  | cons op rest ih =>
      show (runOps hasher (applyOp hasher entries op) rest).lookup k = some v
      obtain ⟨t, ht⟩ := applyOp_append hasher entries op
      exact ih (by rw [ht]; exact lookup_append_some h)

theorem mem_of_lookup_some {k : StringID} {l : Entries} {v : String}
    (h : l.lookup k = some v) : (k, v) ∈ l := by
  induction l with
  | nil => simp [List.lookup] at h
  | cons p rest ih =>
      simp only [List.lookup] at h
      by_cases hk : k == p.1
      · simp only [hk] at h
        obtain ⟨k2, v2⟩ := p
        have hk2 : k = k2 := by simpa using hk
        have hv2 : v2 = v := by simpa using h
        subst hk2; subst hv2
        exact List.mem_cons_self _ _
      · simp only [hk] at h
        exact List.mem_cons_of_mem _ (ih h)

theorem good_insert {hasher : String → StringID} {entries : Entries}
    (s : String) (hg : Good hasher entries) :
    Good hasher (entries ++ [(hasher s, s)]) := by
  intro p hp
  rcases List.mem_append.mp hp with h | h
  · exact hg p h
  · have : p = (hasher s, s) := by simpa using h
    subst this
    rfl

theorem good_applyOp {hasher : String → StringID} {entries : Entries}
    (op : Op) (hg : Good hasher entries) :
    Good hasher (applyOp hasher entries op) := by
  cases op with
  | internOp s =>
      cases hl : entries.lookup (hasher s)
      · simpa [applyOp, internString, hl] using good_insert s hg
      · simpa [applyOp, internString, hl] using hg
  | fromTextOp s =>
      cases hl : entries.lookup (hasher s)
      · simpa [applyOp, HashString.fromString, hl] using good_insert s hg
      · simpa [applyOp, HashString.fromString, hl] using hg
  | fromIDOp id =>
      cases hl : entries.lookup id
      · simpa [applyOp, HashString.fromStringID, hl] using hg
      · simpa [applyOp, HashString.fromStringID, hl] using hg
  | resolveOp id => simpa [applyOp, getStringFromHash] using hg
  | checkTextOp s => simpa [applyOp, isStringInterned] using hg
  | checkIDOp id => simpa [applyOp, isStringInternedID] using hg

-- ## Claims

/-- C1: for every string `s` whose hash does not collide with the hash of any
other string previously interned, resolving the identifier returned by
`intern(s)` yields `s` itself: `resolve(intern(s)) == s`. -/
theorem C1_resolve_intern_roundtrip (hasher : String → StringID)
    (entries : Entries) (s : String)
    (hnc : ∀ p ∈ entries, p.2 ≠ s → p.1 ≠ hasher s) :
    (getStringFromHash (internString hasher entries s).2
        (internString hasher entries s).1).1 = s := by
  rw [internString_fst]
  cases hl : entries.lookup (hasher s) with
  | some v =>
      have hmem : (hasher s, v) ∈ entries := mem_of_lookup_some hl
      have hv : v = s := by
        by_contra hvs
        exact hnc (hasher s, v) hmem hvs rfl
      rw [internString_of_found hl]
      simp [getStringFromHash, hl, hv]
  | none =>
      rw [internString_of_absent hl]
      simp [getStringFromHash, lookup_append_none hl, List.lookup]

/-- Witness for C1 at a concrete input. -/
theorem C1_resolve_intern_roundtrip_witness :
    (getStringFromHash
        (internString (fun s => s.length) [] "ab").2
        (internString (fun s => s.length) [] "ab").1).1 = "ab" :=
  C1_resolve_intern_roundtrip (fun s => s.length) [] "ab" (by simp)

/-- C2: every operation of the facility preserves the registry invariant
(`hasher(entries[k]) == k` for every present key `k`), and no operation ever
removes or mutates an existing entry: the new table is the old one with zero
or more entries appended. -/
theorem C2_operations_preserve_invariant (hasher : String → StringID)
    (entries : Entries) (op : Op) (hg : Good hasher entries) :
    Good hasher (applyOp hasher entries op) ∧
    ∃ t, applyOp hasher entries op = entries ++ t :=
  ⟨good_applyOp op hg, applyOp_append hasher entries op⟩

/-- Witness for C2 at a concrete input. -/
theorem C2_operations_preserve_invariant_witness :
    Good (fun s => s.length)
      (applyOp (fun s => s.length) [(1, "a")] (Op.internOp "bc")) ∧
    ∃ t, applyOp (fun s => s.length) [(1, "a")] (Op.internOp "bc") =
      [(1, "a")] ++ t :=
  C2_operations_preserve_invariant (fun s => s.length) [(1, "a")]
    (Op.internOp "bc") (by decide)

/-- C3: constructing a `HashString` from an identifier absent from the
registry yields no usable handle (the `assert` fires, modelled as `none`),
and the identifier-constructor path never mutates the registry, whether the
lookup succeeds or fails. -/
theorem C3_fromID_fails_fatally (entries : Entries) (id : StringID)
    (h : entries.lookup id = none) :
    (HashString.fromStringID entries id).1 = none ∧
    ∀ id2 : StringID, (HashString.fromStringID entries id2).2 = entries := by
  constructor
  · simp [HashString.fromStringID, h]
  · intro id2
    cases hl : entries.lookup id2 <;> simp [HashString.fromStringID, hl]

/-- Witness for C3 at a concrete input. -/
theorem C3_fromID_fails_fatally_witness :
    (HashString.fromStringID [(1, "a")] 2).1 = none ∧
    ∀ id2 : StringID, (HashString.fromStringID [(1, "a")] id2).2 = [(1, "a")] :=
  C3_fromID_fails_fatally [(1, "a")] 2 (by decide)

/-- C4: `intern` is idempotent: it always returns `hasher s`, re-interning
immediately afterwards returns the same identifier and the same table, and
after the first call any later `intern(s)` — with arbitrary operations in
between — returns that identifier without changing the table. -/
theorem C4_intern_idempotent (hasher : String → StringID) (entries : Entries)
    (s : String) :
    (internString hasher entries s).1 = hasher s ∧
    internString hasher (internString hasher entries s).2 s =
      internString hasher entries s ∧
    ∀ ops : List Op,
      internString hasher (runOps hasher (internString hasher entries s).2 ops) s
        = (hasher s, runOps hasher (internString hasher entries s).2 ops) := by
  have h1 := internString_fst hasher entries s
  have h3 : ∀ ops : List Op,
      internString hasher (runOps hasher (internString hasher entries s).2 ops) s
        = (hasher s, runOps hasher (internString hasher entries s).2 ops) := by
    intro ops
    obtain ⟨v, hv⟩ := lookup_after_intern hasher entries s
    exact internString_of_found (runOps_lookup_some ops hv)
  refine ⟨h1, ?_, h3⟩
  have h2 := h3 []
  simp only [runOps, List.foldl_nil] at h2
  rw [h2, ← h1]

/-- C5: when two distinct strings collide (`hasher s1 = hasher s2`) and `s1`
is interned first, interning `s2` (via `internString` or the
from-text constructor) returns the same identifier and leaves the table
unchanged; the canonical text for that identifier is `s1` and stays `s1`
under any further operation sequence. -/
theorem C5_first_insert_wins (hasher : String → StringID) (entries : Entries)
    (s1 s2 : String) (hne : s1 ≠ s2) (hcol : hasher s1 = hasher s2)
    (habs : entries.lookup (hasher s1) = none) :
    internString hasher (internString hasher entries s1).2 s2 =
      ((internString hasher entries s1).1, (internString hasher entries s1).2) ∧
    ((internString hasher entries s1).2).lookup (hasher s1) = some s1 ∧
    (HashString.fromString hasher (internString hasher entries s1).2 s2).2 =
      (internString hasher entries s1).2 ∧
    ((HashString.fromString hasher (internString hasher entries s1).2 s2).1).getString
      = s1 ∧
    ∀ ops : List Op,
      (runOps hasher (internString hasher entries s1).2 ops).lookup (hasher s1)
        = some s1 := by
  have hv : ((internString hasher entries s1).2).lookup (hasher s1) = some s1 := by
    rw [internString_of_absent habs]
    rw [lookup_append_none habs]
    simp [List.lookup]
  have hv2 : ((internString hasher entries s1).2).lookup (hasher s2) = some s1 := by
    rw [← hcol]; exact hv
  refine ⟨?_, hv, ?_, ?_, fun ops => runOps_lookup_some ops hv⟩
  · rw [internString_of_found hv2, internString_fst, hcol]
  · simp [HashString.fromString, hv2]
  · simp [HashString.fromString, hv2, HashString.getString]

/-- Witness for C5 at a concrete input (two distinct length-1 strings collide
under the length hasher). -/
theorem C5_first_insert_wins_witness :
    internString (fun s => s.length)
        (internString (fun s => s.length) [] "a").2 "b" =
      ((internString (fun s => s.length) [] "a").1,
       (internString (fun s => s.length) [] "a").2) ∧
    ((internString (fun s => s.length) [] "a").2).lookup
        ((fun (s : String) => s.length) "a") = some "a" ∧
    (HashString.fromString (fun s => s.length)
        (internString (fun s => s.length) [] "a").2 "b").2 =
      (internString (fun s => s.length) [] "a").2 ∧
    ((HashString.fromString (fun s => s.length)
        (internString (fun s => s.length) [] "a").2 "b").1).getString = "a" ∧
    ∀ ops : List Op,
      (runOps (fun s => s.length)
          (internString (fun s => s.length) [] "a").2 ops).lookup
          ((fun (s : String) => s.length) "a") = some "a" :=
  C5_first_insert_wins (fun s => s.length) [] "a" "b"
    (by decide) (by decide) (by decide)

/-- C6: `resolve` (`getStringFromHash`) is a pure lookup: it returns the
canonical text when the identifier is present, the empty string when it is
absent, and it never changes the registry. -/
theorem C6_resolve_pure_lookup (entries : Entries) (id : StringID) :
    (∀ v : String, entries.lookup id = some v →
      (getStringFromHash entries id).1 = v) ∧
    (entries.lookup id = none → (getStringFromHash entries id).1 = "") ∧
    (getStringFromHash entries id).2 = entries := by
  refine ⟨?_, ?_, rfl⟩
  · intro v hv
    simp [getStringFromHash, hv]
  · intro hn
    simp [getStringFromHash, hn]

/-- Witness for C6 at concrete inputs. -/
theorem C6_resolve_pure_lookup_witness :
    (getStringFromHash [(1, "a")] 1).1 = "a" ∧
    (getStringFromHash [(1, "a")] 2).1 = "" :=
  ⟨(C6_resolve_pure_lookup [(1, "a")] 1).1 "a" (by decide),
   (C6_resolve_pure_lookup [(1, "a")] 2).2.1 (by decide)⟩

/-- C7: `a == b` iff the identifiers are equal; the string overload holds iff
the handle's resolved canonical text equals the string; the identifier
overload holds iff the handle's identifier equals it; each `!=` overload is
the negation of the corresponding `==`. -/
theorem C7_equality_overloads (a b : HashString) (s : String) (id : StringID) :
    (HashString.beq a b = true ↔ a.m_hashValue = b.m_hashValue) ∧
    HashString.bne a b = !(HashString.beq a b) ∧
    (HashString.beqStr a s = true ↔ a.getString = s) ∧
    HashString.bneStr a s = !(HashString.beqStr a s) ∧
    (HashString.beqID a id = true ↔ a.m_hashValue = id) ∧
    HashString.bneID a id = !(HashString.beqID a id) := by
  refine ⟨?_, rfl, ?_, rfl, ?_, rfl⟩
  · simp [HashString.beq]
  · simp [HashString.beqStr]
  · simp [HashString.beqID]

/-- C8: `is_interned(s)` is `false` while `hasher s` is absent, `true`
immediately after `intern(s)`, and stays `true` under any further sequence of
operations. -/
theorem C8_isInterned_monotone (hasher : String → StringID)
    (entries : Entries) (s : String)
    (hpre : entries.lookup (hasher s) = none) :
    (isStringInterned hasher entries s).1 = false ∧
    (isStringInterned hasher (internString hasher entries s).2 s).1 = true ∧
    ∀ ops : List Op,
      (isStringInterned hasher
          (runOps hasher (internString hasher entries s).2 ops) s).1 = true := by
  obtain ⟨v, hv⟩ := lookup_after_intern hasher entries s
  refine ⟨by simp [isStringInterned, hpre], by simp [isStringInterned, hv], ?_⟩
  intro ops
  simp [isStringInterned, runOps_lookup_some ops hv]

/-- Witness for C8 at a concrete input. -/
theorem C8_isInterned_monotone_witness :
    (isStringInterned (fun s => s.length) [] "ab").1 = false ∧
    (isStringInterned (fun s => s.length)
        (internString (fun s => s.length) [] "ab").2 "ab").1 = true ∧
    ∀ ops : List Op,
      (isStringInterned (fun s => s.length)
          (runOps (fun s => s.length)
            (internString (fun s => s.length) [] "ab").2 ops) "ab").1 = true :=
  C8_isInterned_monotone (fun s => s.length) [] "ab" (by decide)

/-- C9: a default-constructed `HashString` equals the constant
`s_kEmptyString`, both resolve to the empty string, and the empty string is
pre-registered: the map right after static construction binds `hasher ""` to
`""` (so the construction always succeeds — it is a total function here). -/
theorem C9_default_is_empty_string (hasher : String → StringID) :
    HashString.beq (HashString.mkDefault hasher) (s_kEmptyString hasher) = true ∧
    (HashString.mkDefault hasher).getString = "" ∧
    (s_kEmptyString hasher).getString = "" ∧
    (initialEntries hasher).lookup (hasher "") = some "" := by
  refine ⟨?_, rfl, rfl, ?_⟩
  · simp [HashString.beq, HashString.mkDefault]
  · simp [initialEntries, emptyStringInit, HashString.fromString, List.lookup]

/-- C10: after `intern("")`, resolving the returned identifier gives the
empty string — exactly the value `resolve` returns for any identifier absent
from the table, so the not-found sentinel is indistinguishable from a
successful lookup of the interned empty string. -/
theorem C10_sentinel_indistinguishable (hasher : String → StringID)
    (entries : Entries) (id : StringID)
    (hpre : entries.lookup (hasher "") = none ∨
            entries.lookup (hasher "") = some "") :
    (getStringFromHash (internString hasher entries "").2
        (internString hasher entries "").1).1 = "" ∧
    (((internString hasher entries "").2).lookup id = none →
      (getStringFromHash (internString hasher entries "").2 id).1 =
        (getStringFromHash (internString hasher entries "").2
            (internString hasher entries "").1).1) := by
  have hmain : (getStringFromHash (internString hasher entries "").2
      (internString hasher entries "").1).1 = "" := by
    rw [internString_fst]
    rcases hpre with hn | hs
    · rw [internString_of_absent hn]
      simp [getStringFromHash, lookup_append_none hn, List.lookup]
    · rw [internString_of_found hs]
      simp [getStringFromHash, hs]
  refine ⟨hmain, ?_⟩
  intro hid
  rw [hmain]
  simp [getStringFromHash, hid]

/-- Witness for C10 at a concrete input. -/
theorem C10_sentinel_indistinguishable_witness :
    (getStringFromHash (internString (fun s => s.length) [] "").2
        (internString (fun s => s.length) [] "").1).1 = "" ∧
    (((internString (fun s => s.length) [] "").2).lookup 5 = none →
      (getStringFromHash (internString (fun s => s.length) [] "").2 5).1 =
        (getStringFromHash (internString (fun s => s.length) [] "").2
            (internString (fun s => s.length) [] "").1).1) :=
  C10_sentinel_indistinguishable (fun s => s.length) [] 5 (Or.inl (by decide))
